import Mathlib

/-!
Verification of the MeetingScheduler service (Go, `meeting-scheduler-code.go`).

The Go program keeps three in-process maps (`events`, `timeSlots`,
`userAvailability`) keyed by string identifiers and serves CRUD handlers plus a
recommendation endpoint `getRecommendations`.  We embed the store as three
lists whose order models Go's (unspecified) map-iteration order; timestamps are
integers (seconds), and the `float64` percentages and real-valued minute
durations are modelled as rationals.  Fallible handlers return `Except`.
-/

open scoped List

/-- Go `Event` struct (timestamps as integer seconds). -/
structure Event where
  id : String
  title : String
  description : String
  organizerID : String
  requiredDuration : Int
  status : String
  createdAt : Int
  updatedAt : Int
deriving Repr, DecidableEq

/-- Go `TimeSlot` struct. -/
structure TimeSlot where
  id : String
  eventID : String
  startTime : Int
  endTime : Int
  createdAt : Int
  updatedAt : Int
deriving Repr, DecidableEq

/-- Go `UserAvailability` struct. -/
structure UserAvailability where
  id : String
  userID : String
  eventID : String
  timeSlotID : String
  status : String
  createdAt : Int
  updatedAt : Int
deriving Repr, DecidableEq

/-- Go `Recommendation` struct; the `float64` percentage is modelled in `ℚ`. -/
structure Recommendation where
  timeSlot : TimeSlot
  availableUsers : List String
  unavailableUsers : List String
  availabilityPercentage : ℚ
deriving Repr, DecidableEq

/-- Go `CreateEventRequest` (also the request body of `updateEvent`). -/
structure CreateEventRequest where
  title : String
  description : String
  organizerID : String
  requiredDuration : Int
deriving Repr, DecidableEq

/-- Go `UserAvailabilityRequest`. -/
structure UserAvailabilityRequest where
  timeSlotID : String
  status : String
deriving Repr, DecidableEq

/-- Error outcomes a handler can report (HTTP 404 with a message). -/
inductive SchedulerError where
  | notFound : String → SchedulerError
deriving Repr, DecidableEq

/-- The three global maps of the Go program.  Each map is embedded as the list
of its entries; the list order models Go's map-iteration order, which Go leaves
unspecified and randomizes between iterations.  Keys (the `id` fields) are
unique in any state reachable by the program. -/
structure Store where
  events : List Event
  timeSlots : List TimeSlot
  userAvailability : List UserAvailability
deriving Repr, DecidableEq

/-- Map lookup `events[eventID]`. -/
def findEvent (s : Store) (eventID : String) : Option Event :=
  s.events.find? (fun e => e.id == eventID)

/-- Map lookup `timeSlots[timeslotID]` (the global slot map, not scoped to an
event). -/
def findTimeSlot (s : Store) (timeslotID : String) : Option TimeSlot :=
  s.timeSlots.find? (fun t => t.id == timeslotID)

/-- `slot.EndTime.Sub(slot.StartTime).Minutes()`: the slot length in
real-valued minutes. -/
def slotDurationMinutes (slot : TimeSlot) : ℚ :=
  ((slot.endTime - slot.startTime : Int) : ℚ) / 60

/-- The loop collecting `eventSlots`: all slots whose `EventID` matches. -/
def eventSlotsOf (s : Store) (eventID : String) : List TimeSlot :=
  s.timeSlots.filter (fun slot => slot.eventID == eventID)

/-- Key insertion into the `uniqueUsers` map: a key already present is left in
place, a new key is appended. -/
def insertUser (acc : List String) (u : String) : List String :=
  if u ∈ acc then acc else acc ++ [u]

/-- The `uniqueUsers` map: the loop `uniqueUsers[avail.UserID] = true` over the
event's availability records, modelled as key insertion into a duplicate-free
list; the resulting order stands for Go's arbitrary map-iteration order. -/
def uniqueUsersOf (s : Store) (eventID : String) : List String :=
  (s.userAvailability.filter (fun a => a.eventID == eventID)).foldl
    (fun acc a => insertUser acc a.userID) []

/-- The inner search of `getRecommendations`: the user is available iff some
availability record matches (event, user, slot) with status `available`. -/
def isUserAvailable (s : Store) (eventID userID slotID : String) : Bool :=
  s.userAvailability.any (fun a =>
    a.eventID == eventID && a.userID == userID && a.timeSlotID == slotID &&
      a.status == "available")

/-- Per-slot body of the recommendation loop: partition the known users and
compute `float64(len(availableUsers)) / float64(len(uniqueUsers)) * 100`. -/
def mkRecommendation (s : Store) (eventID : String) (users : List String)
    (slot : TimeSlot) : Recommendation :=
  let availableUsers := users.filter (fun u => isUserAvailable s eventID u slot.id)
  let unavailableUsers := users.filter (fun u => !(isUserAvailable s eventID u slot.id))
  { timeSlot := slot
    availableUsers := availableUsers
    unavailableUsers := unavailableUsers
    availabilityPercentage :=
      (availableUsers.length : ℚ) / (users.length : ℚ) * 100 }

/-- One run of the inner `j`-loop of the sort in `getRecommendations`, with
`cur` the current value of `recommendations[i]`: whenever `cur` has a strictly
smaller percentage than the scanned element the two are swapped.  Returns the
final `recommendations[i]` and the (possibly reshuffled) tail. -/
def innerPass (cur : Recommendation) :
    List Recommendation → Recommendation × List Recommendation
  | [] => (cur, [])
  | x :: rest =>
    if cur.availabilityPercentage < x.availabilityPercentage then
      let p := innerPass x rest
      (p.1, cur :: p.2)
    else
      let p := innerPass cur rest
      (p.1, x :: p.2)

theorem innerPass_length (cur : Recommendation) (l : List Recommendation) :
    (innerPass cur l).2.length = l.length := by
  induction l generalizing cur with
  | nil => simp [innerPass]
  | cons x rest ih =>
    simp only [innerPass]
    split <;> simp [ih]

/-- Outer `i`-loop of the sort, structurally recursive on a fuel that starts at
the list length (`innerPass` preserves length, so the fuel never runs out). -/
def sortRecsAux : Nat → List Recommendation → List Recommendation
  | 0, l => l
  | _ + 1, [] => []
  | n + 1, x :: rest =>
    let p := innerPass x rest
    p.1 :: sortRecsAux n p.2

/-- The double-loop swap sort of `getRecommendations` (descending by
`availabilityPercentage`, no tie-break). -/
def sortRecommendations (l : List Recommendation) : List Recommendation :=
  sortRecsAux l.length l

instance {ε α : Type} [DecidableEq ε] [DecidableEq α] : DecidableEq (Except ε α) := by
  intro a b
  cases a <;> cases b
  case error.error e f =>
    exact if h : e = f then .isTrue (by rw [h]) else .isFalse (by intro hh; cases hh; exact h rfl)
  case error.ok e v => exact .isFalse (by intro h; cases h)
  case ok.error v e => exact .isFalse (by intro h; cases h)
  case ok.ok v w =>
    exact if h : v = w then .isTrue (by rw [h]) else .isFalse (by intro hh; cases hh; exact h rfl)

theorem sortRecsAux_length (fuel : Nat) (l : List Recommendation) :
    (sortRecsAux fuel l).length = l.length := by
  induction fuel generalizing l with
  | zero => simp [sortRecsAux]
  | succ n ih =>
    cases l with
    | nil => simp [sortRecsAux]
    | cons x rest => simp [sortRecsAux, ih, innerPass_length]

/-- The `getRecommendations` handler. -/
def getRecommendations (s : Store) (eventID : String) :
    Except SchedulerError (List Recommendation) :=
  match findEvent s eventID with
  | none => .error (.notFound "Event not found")
  | some event =>
    let eventSlots := eventSlotsOf s eventID
    if eventSlots.isEmpty then
      .ok []
    else
      let uniqueUsers := uniqueUsersOf s eventID
      if uniqueUsers.isEmpty then
        .ok []
      else
        let eligible := eventSlots.filter (fun slot =>
          !(decide (slotDurationMinutes slot < (event.requiredDuration : ℚ))))
        let recommendations := eligible.map (mkRecommendation s eventID uniqueUsers)
        .ok (sortRecommendations recommendations)

/-- Kernel-computable twin of `mkRecommendation`: the percentage is written
with `mkRat` (Batteries marks `Rat.mul`/`Rat.inv` irreducible, which blocks
`decide` on the faithful form).  `mkRecommendationC_eq` proves the two equal. -/
def mkRecommendationC (s : Store) (eventID : String) (users : List String)
    (slot : TimeSlot) : Recommendation :=
  let availableUsers := users.filter (fun u => isUserAvailable s eventID u slot.id)
  let unavailableUsers := users.filter (fun u => !(isUserAvailable s eventID u slot.id))
  { timeSlot := slot
    availableUsers := availableUsers
    unavailableUsers := unavailableUsers
    availabilityPercentage := mkRat (100 * availableUsers.length) users.length }

theorem mkRecommendationC_eq : mkRecommendationC = mkRecommendation := by
  funext s eventID users slot
  simp only [mkRecommendationC, mkRecommendation, Recommendation.mk.injEq]
  refine ⟨trivial, trivial, trivial, ?_⟩
  rw [Rat.mkRat_eq_div]
  push_cast
  ring

theorem slotDurationMinutes_divInt (slot : TimeSlot) :
    Rat.divInt (slot.endTime - slot.startTime) 60 = slotDurationMinutes slot := by
  rw [slotDurationMinutes, Rat.divInt_eq_div]
  push_cast
  ring

/-- Kernel-computable twin of `getRecommendations`, used to evaluate the
handler on concrete stores; `getRecommendationsC_eq` proves it equal. -/
def getRecommendationsC (s : Store) (eventID : String) :
    Except SchedulerError (List Recommendation) :=
  match findEvent s eventID with
  | none => .error (.notFound "Event not found")
  | some event =>
    let eventSlots := eventSlotsOf s eventID
    if eventSlots.isEmpty then
      .ok []
    else
      let uniqueUsers := uniqueUsersOf s eventID
      if uniqueUsers.isEmpty then
        .ok []
      else
        let eligible := eventSlots.filter (fun slot =>
          !(decide (Rat.divInt (slot.endTime - slot.startTime) 60 <
            (event.requiredDuration : ℚ))))
        let recommendations := eligible.map (mkRecommendationC s eventID uniqueUsers)
        .ok (sortRecommendations recommendations)

theorem getRecommendationsC_eq : getRecommendationsC = getRecommendations := by
  funext s eventID
  unfold getRecommendationsC getRecommendations
  simp only [slotDurationMinutes_divInt, mkRecommendationC_eq]

/-- The `updateEvent` handler (`now` models `time.Now()`). -/
def updateEvent (s : Store) (eventID : String) (req : CreateEventRequest)
    (now : Int) : Except SchedulerError (Event × Store) :=
  match findEvent s eventID with
  | none => .error (.notFound "Event not found")
  | some event =>
    let updated : Event :=
      { event with
        title := req.title
        description := req.description
        organizerID := req.organizerID
        requiredDuration := req.requiredDuration
        updatedAt := now }
    .ok (updated,
      { s with events := s.events.map (fun e => if e.id == eventID then updated else e) })

/-- The `createUserAvailability` handler; `newID` models `uuid.New().String()`
(fresh with respect to the store) and `now` models `time.Now()`. -/
def createUserAvailability (s : Store) (eventID userID : String)
    (req : UserAvailabilityRequest) (newID : String) (now : Int) :
    Except SchedulerError (UserAvailability × Store) :=
  match findEvent s eventID with
  | none => .error (.notFound "Event not found")
  | some _ =>
    match findTimeSlot s req.timeSlotID with
    | none => .error (.notFound "Time slot not found")
    | some _ =>
      let availability : UserAvailability :=
        { id := newID
          userID := userID
          eventID := eventID
          timeSlotID := req.timeSlotID
          status := req.status
          createdAt := now
          updatedAt := now }
      .ok (availability,
        { s with userAvailability := s.userAvailability ++ [availability] })

/-! ### Properties of the swap sort -/

theorem innerPass_perm (cur : Recommendation) (l : List Recommendation) :
    (innerPass cur l).1 :: (innerPass cur l).2 ~ cur :: l := by
  induction l generalizing cur with
  | nil => simp [innerPass]
  | cons x rest ih =>
    simp only [innerPass]
    split
    · calc (innerPass x rest).1 :: cur :: (innerPass x rest).2
          ~ cur :: (innerPass x rest).1 :: (innerPass x rest).2 :=
            List.Perm.swap _ _ _
        _ ~ cur :: x :: rest := (ih x).cons cur
    · calc (innerPass cur rest).1 :: x :: (innerPass cur rest).2
          ~ x :: (innerPass cur rest).1 :: (innerPass cur rest).2 :=
            List.Perm.swap _ _ _
        _ ~ x :: cur :: rest := (ih cur).cons x
        _ ~ cur :: x :: rest := List.Perm.swap _ _ _

theorem innerPass_max (cur : Recommendation) (l : List Recommendation) :
    cur.availabilityPercentage ≤ (innerPass cur l).1.availabilityPercentage ∧
    ∀ y ∈ (innerPass cur l).2,
      y.availabilityPercentage ≤ (innerPass cur l).1.availabilityPercentage := by
  induction l generalizing cur with
  | nil => simp [innerPass]
  | cons x rest ih =>
    simp only [innerPass]
    split
    next hlt =>
      obtain ⟨h1, h2⟩ := ih x
      refine ⟨le_trans (le_of_lt hlt) h1, ?_⟩
      intro y hy
      rcases List.mem_cons.mp hy with rfl | hy
      · exact le_trans (le_of_lt hlt) h1
      · exact h2 y hy
    next hge =>
      obtain ⟨h1, h2⟩ := ih cur
      refine ⟨h1, ?_⟩
      intro y hy
      rcases List.mem_cons.mp hy with rfl | hy
      · exact le_trans (not_lt.mp hge) h1
      · exact h2 y hy

theorem sortRecsAux_perm (fuel : Nat) (l : List Recommendation)
    (h : l.length ≤ fuel) : sortRecsAux fuel l ~ l := by
  induction fuel generalizing l with
  | zero => simp [sortRecsAux]
  | succ n ih =>
    cases l with
    | nil => simp [sortRecsAux]
    | cons x rest =>
      simp only [sortRecsAux]
      have hlen : (innerPass x rest).2.length ≤ n := by
        have := innerPass_length x rest
        simp only [List.length_cons] at h
        omega
      calc (innerPass x rest).1 :: sortRecsAux n (innerPass x rest).2
          ~ (innerPass x rest).1 :: (innerPass x rest).2 := ((ih _ hlen).cons _)
        _ ~ x :: rest := innerPass_perm x rest

theorem sortRecsAux_sorted (fuel : Nat) (l : List Recommendation)
    (h : l.length ≤ fuel) :
    (sortRecsAux fuel l).Pairwise
      (fun a b => b.availabilityPercentage ≤ a.availabilityPercentage) := by
  induction fuel generalizing l with
  | zero =>
    have : l = [] := List.length_eq_zero.mp (Nat.le_zero.mp h)
    simp [this, sortRecsAux]
  | succ n ih =>
    cases l with
    | nil => simp [sortRecsAux]
    | cons x rest =>
      simp only [sortRecsAux]
      have hlen : (innerPass x rest).2.length ≤ n := by
        have := innerPass_length x rest
        simp only [List.length_cons] at h
        omega
      rw [List.pairwise_cons]
      constructor
      · intro y hy
        have hy2 : y ∈ (innerPass x rest).2 :=
          (sortRecsAux_perm n _ hlen).mem_iff.mp hy
        exact (innerPass_max x rest).2 y hy2
      · exact ih _ hlen

theorem sortRecommendations_perm (l : List Recommendation) :
    sortRecommendations l ~ l :=
  sortRecsAux_perm _ _ le_rfl

theorem sortRecommendations_sorted (l : List Recommendation) :
    (sortRecommendations l).Pairwise
      (fun a b => b.availabilityPercentage ≤ a.availabilityPercentage) :=
  sortRecsAux_sorted _ _ le_rfl

/-! ### Characterizations of the resolver and the known-user set -/

/-- `u` appears in some availability record of the event (`u` is a "known
user" of the event). -/
def isKnownUser (s : Store) (eventID u : String) : Prop :=
  ∃ a ∈ s.userAvailability, a.eventID = eventID ∧ a.userID = u

/-- Some availability record matches (event, user, slot) with status
`available`. -/
def hasAvailableRecord (s : Store) (eventID u slotID : String) : Prop :=
  ∃ a ∈ s.userAvailability, a.eventID = eventID ∧ a.userID = u ∧
    a.timeSlotID = slotID ∧ a.status = "available"

theorem isUserAvailable_iff (s : Store) (eventID u slotID : String) :
    isUserAvailable s eventID u slotID = true ↔
      hasAvailableRecord s eventID u slotID := by
  simp only [isUserAvailable, hasAvailableRecord, List.any_eq_true,
    Bool.and_eq_true, beq_iff_eq]
  constructor
  · rintro ⟨a, ha, ⟨⟨⟨h1, h2⟩, h3⟩, h4⟩⟩
    exact ⟨a, ha, h1, h2, h3, h4⟩
  · rintro ⟨a, ha, h1, h2, h3, h4⟩
    exact ⟨a, ha, ⟨⟨⟨h1, h2⟩, h3⟩, h4⟩⟩

theorem mem_insertUser (acc : List String) (v u : String) :
    u ∈ insertUser acc v ↔ u ∈ acc ∨ u = v := by
  unfold insertUser
  split
  next h =>
    constructor
    · exact Or.inl
    · rintro (h1 | rfl)
      · exact h1
      · exact h
  next h => simp

theorem nodup_insertUser (acc : List String) (v : String) (hn : acc.Nodup) :
    (insertUser acc v).Nodup := by
  unfold insertUser
  split
  next => exact hn
  next h => simp [List.nodup_append, hn, h]

theorem mem_foldl_insertUser (l : List UserAvailability) (acc : List String)
    (u : String) :
    u ∈ l.foldl (fun acc a => insertUser acc a.userID) acc ↔
      u ∈ acc ∨ ∃ a ∈ l, a.userID = u := by
  induction l generalizing acc with
  | nil => simp
  | cons x xs ih =>
    simp only [List.foldl_cons, ih, mem_insertUser, List.mem_cons]
    constructor
    · rintro ((h | rfl) | h)
      · exact Or.inl h
      · exact Or.inr ⟨x, Or.inl rfl, rfl⟩
      · obtain ⟨a, ha, hau⟩ := h
        exact Or.inr ⟨a, Or.inr ha, hau⟩
    · rintro (h | ⟨a, (rfl | ha), hau⟩)
      · exact Or.inl (Or.inl h)
      · exact Or.inl (Or.inr hau.symm)
      · exact Or.inr ⟨a, ha, hau⟩

theorem nodup_foldl_insertUser (l : List UserAvailability) (acc : List String)
    (hn : acc.Nodup) :
    (l.foldl (fun acc a => insertUser acc a.userID) acc).Nodup := by
  induction l generalizing acc with
  | nil => simpa
  | cons x xs ih => exact ih _ (nodup_insertUser _ _ hn)

theorem mem_uniqueUsersOf (s : Store) (eventID u : String) :
    u ∈ uniqueUsersOf s eventID ↔ isKnownUser s eventID u := by
  unfold uniqueUsersOf
  rw [mem_foldl_insertUser]
  simp only [List.not_mem_nil, false_or, List.mem_filter, beq_iff_eq,
    isKnownUser]
  constructor
  · rintro ⟨a, ⟨ha, h1⟩, h2⟩
    exact ⟨a, ha, h1, h2⟩
  · rintro ⟨a, ha, h1, h2⟩
    exact ⟨a, ⟨ha, h1⟩, h2⟩

theorem nodup_uniqueUsersOf (s : Store) (eventID : String) :
    (uniqueUsersOf s eventID).Nodup :=
  nodup_foldl_insertUser _ _ List.nodup_nil

theorem mem_availableUsers (s : Store) (eventID : String) (users : List String)
    (slot : TimeSlot) (u : String) :
    u ∈ (mkRecommendation s eventID users slot).availableUsers ↔
      u ∈ users ∧ isUserAvailable s eventID u slot.id = true := by
  simp [mkRecommendation, List.mem_filter]

theorem mem_unavailableUsers (s : Store) (eventID : String) (users : List String)
    (slot : TimeSlot) (u : String) :
    u ∈ (mkRecommendation s eventID users slot).unavailableUsers ↔
      u ∈ users ∧ ¬ isUserAvailable s eventID u slot.id = true := by
  simp [mkRecommendation, List.mem_filter]

/-- Shape of every element of a successful `getRecommendations` result: it is
the per-slot record built by the loop body for some slot of the event whose
duration passed the eligibility test. -/
theorem mem_of_getRecommendations_ok (s : Store) (eventID : String)
    (recs : List Recommendation) (r : Recommendation)
    (hok : getRecommendations s eventID = .ok recs) (hr : r ∈ recs) :
    ∃ event slot, findEvent s eventID = some event ∧
      slot ∈ s.timeSlots ∧ slot.eventID = eventID ∧
      ¬ slotDurationMinutes slot < (event.requiredDuration : ℚ) ∧
      uniqueUsersOf s eventID ≠ [] ∧
      r = mkRecommendation s eventID (uniqueUsersOf s eventID) slot := by
  unfold getRecommendations at hok
  cases hfind : findEvent s eventID with
  | none => rw [hfind] at hok; cases hok
  | some event =>
    rw [hfind] at hok
    simp only at hok
    split_ifs at hok with h1 h2
    · cases hok; cases hr
    · cases hok; cases hr
    · cases hok
      have hr' : r ∈ ((eventSlotsOf s eventID).filter (fun slot =>
          !(decide (slotDurationMinutes slot < (event.requiredDuration : ℚ))))).map
            (mkRecommendation s eventID (uniqueUsersOf s eventID)) :=
        (sortRecommendations_perm _).mem_iff.mp hr
      obtain ⟨slot, hslot, rfl⟩ := List.mem_map.mp hr'
      obtain ⟨hslotMem, hdur⟩ := List.mem_filter.mp hslot
      obtain ⟨hmem, hevid⟩ := List.mem_filter.mp hslotMem
      refine ⟨event, slot, rfl, hmem, by simpa using hevid, by simpa using hdur,
        by simpa [List.isEmpty_iff] using h2, rfl⟩

/-! ### C1: ordering of the output -/

/-- The ordering claimed by the spec: descending percentage and, among equal
percentages, ascending start time (earlier slot first). -/
def specRankedClaim (l : List Recommendation) : Prop :=
  l.Pairwise (fun a b =>
    b.availabilityPercentage < a.availabilityPercentage ∨
      (b.availabilityPercentage = a.availabilityPercentage ∧
        a.timeSlot.startTime ≤ b.timeSlot.startTime))

def c1event : Event :=
  { id := "e1", title := "standup", description := "", organizerID := "org",
    requiredDuration := 60, status := "active", createdAt := 0, updatedAt := 0 }

/-- 90-minute slot starting at t = 6000 s (the later slot). -/
def c1slotX : TimeSlot :=
  { id := "sX", eventID := "e1", startTime := 6000, endTime := 11400,
    createdAt := 0, updatedAt := 0 }

/-- 90-minute slot starting at t = 0 s (the earlier slot). -/
def c1slotY : TimeSlot :=
  { id := "sY", eventID := "e1", startTime := 0, endTime := 5400,
    createdAt := 0, updatedAt := 0 }

/-- One user, available for both slots; the slot map iterates the later slot
first. -/
def c1store : Store :=
  { events := [c1event], timeSlots := [c1slotX, c1slotY],
    userAvailability :=
      [ { id := "a1", userID := "u1", eventID := "e1", timeSlotID := "sX",
          status := "available", createdAt := 0, updatedAt := 0 },
        { id := "a2", userID := "u1", eventID := "e1", timeSlotID := "sY",
          status := "available", createdAt := 0, updatedAt := 0 } ] }

def c1recX : Recommendation :=
  { timeSlot := c1slotX, availableUsers := ["u1"], unavailableUsers := [],
    availabilityPercentage := 100 }

def c1recY : Recommendation :=
  { timeSlot := c1slotY, availableUsers := ["u1"], unavailableUsers := [],
    availabilityPercentage := 100 }

theorem c1store_eval : getRecommendations c1store "e1" = .ok [c1recX, c1recY] := by
  rw [← getRecommendationsC_eq]
  decide

/-- C1, counterexample: on `c1store` both recommendations score 100%, but the
slot with the later start time comes first, so the claimed equal-percentage
tie-break (earlier start time first) does not hold — the sort compares only
percentages and leaves ties in map-iteration order. -/
theorem C1_counterexample :
    getRecommendations c1store "e1" = .ok [c1recX, c1recY] ∧
    c1recX.availabilityPercentage = c1recY.availabilityPercentage ∧
    c1recY.timeSlot.startTime < c1recX.timeSlot.startTime ∧
    ¬ specRankedClaim [c1recX, c1recY] := by
  refine ⟨c1store_eval, by norm_num [c1recX, c1recY],
    by norm_num [c1recX, c1recY, c1slotX, c1slotY], ?_⟩
  intro h
  rw [specRankedClaim, List.pairwise_cons] at h
  have hrel := h.1 c1recY (List.mem_singleton_self _)
  rcases hrel with hlt | ⟨_, hle⟩
  · norm_num [c1recX, c1recY] at hlt
  · norm_num [c1recX, c1recY, c1slotX, c1slotY] at hle

/-- C1, amended: the output of `getRecommendations` is sorted in descending
(non-increasing) order of availability percentage; the relative order of
recommendations with equal percentages is left unspecified (it follows the
store's iteration order, with no start-time tie-break). -/
theorem C1_sorted_descending (s : Store) (eventID : String)
    (recs : List Recommendation) (hok : getRecommendations s eventID = .ok recs) :
    recs.Pairwise (fun a b =>
      b.availabilityPercentage ≤ a.availabilityPercentage) := by
  unfold getRecommendations at hok
  cases hfind : findEvent s eventID with
  | none => rw [hfind] at hok; cases hok
  | some event =>
    rw [hfind] at hok
    simp only at hok
    split_ifs at hok with h1 h2
    · cases hok; exact List.Pairwise.nil
    · cases hok; exact List.Pairwise.nil
    · cases hok; exact sortRecommendations_sorted _

/-- Witness for `C1_sorted_descending` at the concrete store `c1store`. -/
theorem C1_sorted_descending_witness :
    List.Pairwise (fun a b : Recommendation =>
      b.availabilityPercentage ≤ a.availabilityPercentage) [c1recX, c1recY] :=
  C1_sorted_descending c1store "e1" [c1recX, c1recY] c1store_eval

/-! ### Shared concrete scenario: event `e1`, one eligible slot, 2 of 3 users
available, one too-short slot -/

def wevent : Event :=
  { id := "e1", title := "retro", description := "", organizerID := "org",
    requiredDuration := 60, status := "active", createdAt := 0, updatedAt := 0 }

/-- Eligible 90-minute slot. -/
def wslot1 : TimeSlot :=
  { id := "w1", eventID := "e1", startTime := 0, endTime := 5400,
    createdAt := 0, updatedAt := 0 }

/-- Too-short 30-minute slot. -/
def wslot2 : TimeSlot :=
  { id := "w2", eventID := "e1", startTime := 10000, endTime := 11800,
    createdAt := 0, updatedAt := 0 }

def wstore : Store :=
  { events := [wevent], timeSlots := [wslot1, wslot2],
    userAvailability :=
      [ { id := "r1", userID := "u1", eventID := "e1", timeSlotID := "w1",
          status := "available", createdAt := 0, updatedAt := 0 },
        { id := "r2", userID := "u2", eventID := "e1", timeSlotID := "w1",
          status := "available", createdAt := 0, updatedAt := 0 },
        { id := "r3", userID := "u3", eventID := "e1", timeSlotID := "w1",
          status := "unavailable", createdAt := 0, updatedAt := 0 } ] }

def wrec : Recommendation :=
  { timeSlot := wslot1, availableUsers := ["u1", "u2"],
    unavailableUsers := ["u3"], availabilityPercentage := mkRat 200 3 }

theorem wstore_eval : getRecommendations wstore "e1" = .ok [wrec] := by
  rw [← getRecommendationsC_eq]
  decide

/-! ### C2: the available/unavailable partition -/

theorem mkRecommendation_timeSlot (s : Store) (eventID : String)
    (users : List String) (slot : TimeSlot) :
    (mkRecommendation s eventID users slot).timeSlot = slot := rfl

/-- The partition property claimed for each output recommendation: available
and unavailable users together are exactly the known users, the two lists are
disjoint, and membership in `availableUsers` is equivalent to the existence of
a matching `available` record. -/
def partitionSpec (s : Store) (eventID : String) (r : Recommendation) : Prop :=
  (∀ u, (u ∈ r.availableUsers ∨ u ∈ r.unavailableUsers) ↔ isKnownUser s eventID u) ∧
  (∀ u, ¬ (u ∈ r.availableUsers ∧ u ∈ r.unavailableUsers)) ∧
  (∀ u, isKnownUser s eventID u →
    (u ∈ r.availableUsers ↔ hasAvailableRecord s eventID u r.timeSlot.id)) ∧
  (∀ u, isKnownUser s eventID u →
    (u ∈ r.unavailableUsers ↔ ¬ hasAvailableRecord s eventID u r.timeSlot.id))

/-- C2: every recommendation returned by `getRecommendations` partitions
exactly the known users of the event, and a known user is listed available iff
some record matching (event, user, slot) has status `available`. -/
theorem C2_partition (s : Store) (eventID : String) (recs : List Recommendation)
    (r : Recommendation) (hok : getRecommendations s eventID = .ok recs)
    (hr : r ∈ recs) : partitionSpec s eventID r := by
  obtain ⟨event, slot, hfind, hmem, hevid, hdur, hne, rfl⟩ :=
    mem_of_getRecommendations_ok s eventID recs r hok hr
  refine ⟨?_, ?_, ?_, ?_⟩
  · intro u
    rw [mem_availableUsers, mem_unavailableUsers, ← mem_uniqueUsersOf]
    by_cases h : isUserAvailable s eventID u slot.id = true <;> simp [h]
  · intro u
    rw [mem_availableUsers, mem_unavailableUsers]
    rintro ⟨⟨-, h1⟩, ⟨-, h2⟩⟩
    exact h2 h1
  · intro u hknown
    rw [mem_availableUsers, mkRecommendation_timeSlot, ← isUserAvailable_iff]
    simp [(mem_uniqueUsersOf s eventID u).mpr hknown]
  · intro u hknown
    rw [mem_unavailableUsers, mkRecommendation_timeSlot, ← isUserAvailable_iff]
    simp [(mem_uniqueUsersOf s eventID u).mpr hknown]

/-- Witness for `C2_partition` on the concrete store `wstore`. -/
theorem C2_partition_witness : partitionSpec wstore "e1" wrec :=
  C2_partition wstore "e1" [wrec] wrec wstore_eval (List.mem_singleton_self _)

/-! ### C3: duplicate records for the same (user, event, slot) -/

/-- All availability records matching (event, user, slot). -/
def recordsFor (s : Store) (eventID userID slotID : String) :
    List UserAvailability :=
  s.userAvailability.filter (fun a =>
    a.eventID == eventID && a.userID == userID && a.timeSlotID == slotID)

/-- Modelled from the spec (§3, §4.2 ambiguity note): among all records for the
same (event, user, slot) tuple, "the record" is the latest one — the record
with the most recent update wins deterministically. -/
def latestRecordFor (s : Store) (eventID userID slotID : String) :
    Option UserAvailability :=
  (recordsFor s eventID userID slotID).foldl
    (fun acc a =>
      match acc with
      | none => some a
      | some b => if b.updatedAt < a.updatedAt then some a else some b)
    none

/-- Modelled from the spec: the resolver the claim describes — the user counts
as available exactly when the latest matching record has status `available`. -/
def latestWinsAvailable (s : Store) (eventID userID slotID : String) : Bool :=
  match latestRecordFor s eventID userID slotID with
  | none => false
  | some a => a.status == "available"

def cs3slot : TimeSlot :=
  { id := "s1", eventID := "e1", startTime := 0, endTime := 5400,
    createdAt := 0, updatedAt := 0 }

/-- Two records for the same (user, event, slot): an older `available` one and
a newer `unavailable` one. -/
def cs3 : Store :=
  { events := [ { id := "e1", title := "sync", description := "",
                  organizerID := "org", requiredDuration := 60, status := "active",
                  createdAt := 0, updatedAt := 0 } ],
    timeSlots := [cs3slot],
    userAvailability :=
      [ { id := "b1", userID := "u1", eventID := "e1", timeSlotID := "s1",
          status := "available", createdAt := 1, updatedAt := 1 },
        { id := "b2", userID := "u1", eventID := "e1", timeSlotID := "s1",
          status := "unavailable", createdAt := 2, updatedAt := 2 } ] }

def cs3rec : Recommendation :=
  { timeSlot := cs3slot, availableUsers := ["u1"], unavailableUsers := [],
    availabilityPercentage := 100 }

theorem cs3_eval : getRecommendations cs3 "e1" = .ok [cs3rec] := by
  rw [← getRecommendationsC_eq]
  decide

/-- C3, counterexample: on `cs3` the latest record for (u1, e1, s1) has status
`unavailable`, yet the computation classifies u1 as available (any matching
`available` record wins, regardless of recency), so the latest record does not
determine the resolution. -/
theorem C3_counterexample :
    latestWinsAvailable cs3 "e1" "u1" "s1" = false ∧
    (latestRecordFor cs3 "e1" "u1" "s1").map (fun a => a.status) =
      some "unavailable" ∧
    isUserAvailable cs3 "e1" "u1" "s1" = true ∧
    getRecommendations cs3 "e1" = .ok [cs3rec] ∧
    cs3rec.availableUsers = ["u1"] := by
  refine ⟨by decide, by decide, by decide, cs3_eval, by decide⟩

/-- C3, amended: when several records exist for the same (user, event, slot)
tuple, the recommendation computation classifies the user as available iff at
least one of them has status `available` — any-match wins, independently of
which record is the most recently updated. -/
theorem C3_resolution (s : Store) (eventID : String)
    (recs : List Recommendation) (r : Recommendation) (u : String)
    (hok : getRecommendations s eventID = .ok recs) (hr : r ∈ recs)
    (hknown : isKnownUser s eventID u) :
    u ∈ r.availableUsers ↔ hasAvailableRecord s eventID u r.timeSlot.id := by
  obtain ⟨event, slot, hfind, hmem, hevid, hdur, hne, rfl⟩ :=
    mem_of_getRecommendations_ok s eventID recs r hok hr
  rw [mem_availableUsers, mkRecommendation_timeSlot, ← isUserAvailable_iff]
  simp [(mem_uniqueUsersOf s eventID u).mpr hknown]

/-- Witness for `C3_resolution` on the concrete store `cs3`. -/
theorem C3_resolution_witness :
    "u1" ∈ cs3rec.availableUsers ↔
      hasAvailableRecord cs3 "e1" "u1" cs3rec.timeSlot.id :=
  C3_resolution cs3 "e1" [cs3rec] cs3rec "u1" cs3_eval
    (List.mem_singleton_self _)
    ⟨{ id := "b1", userID := "u1", eventID := "e1", timeSlotID := "s1",
       status := "available", createdAt := 1, updatedAt := 1 },
     by simp [cs3], rfl, rfl⟩

/-! ### C4: slot eligibility -/

/-- C4: every slot in the output satisfies the duration test, and a slot of
the event that is shorter than the required duration never appears in the
output (it is skipped silently, while the call still succeeds). -/
theorem C4_eligibility (s : Store) (eventID : String)
    (recs : List Recommendation)
    (hok : getRecommendations s eventID = .ok recs) :
    ∃ event, findEvent s eventID = some event ∧
      (∀ r ∈ recs, (event.requiredDuration : ℚ) ≤ slotDurationMinutes r.timeSlot) ∧
      (∀ slot ∈ s.timeSlots, slot.eventID = eventID →
        slotDurationMinutes slot < (event.requiredDuration : ℚ) →
        ∀ r ∈ recs, r.timeSlot ≠ slot) := by
  cases hfind : findEvent s eventID with
  | none =>
    unfold getRecommendations at hok
    rw [hfind] at hok
    cases hok
  | some event =>
    refine ⟨event, rfl, ?_, ?_⟩
    · intro r hr
      obtain ⟨event', slot, hfind', hmem, hevid, hdur, hne, rfl⟩ :=
        mem_of_getRecommendations_ok s eventID recs r hok hr
      rw [hfind] at hfind'
      cases hfind'
      rw [mkRecommendation_timeSlot]
      exact not_lt.mp hdur
    · intro slot hmem hevid hshort r hr heq
      obtain ⟨event', slot', hfind', hmem', hevid', hdur', hne', rfl⟩ :=
        mem_of_getRecommendations_ok s eventID recs r hok hr
      rw [hfind] at hfind'
      cases hfind'
      rw [mkRecommendation_timeSlot] at heq
      subst heq
      exact hdur' hshort

/-- Witness for `C4_eligibility` at `wstore`, whose 30-minute slot `wslot2` is
shorter than the required 60 minutes and is absent from the output. -/
theorem C4_eligibility_witness :
    ∃ event, findEvent wstore "e1" = some event ∧
      (∀ r ∈ [wrec], (event.requiredDuration : ℚ) ≤ slotDurationMinutes r.timeSlot) ∧
      (∀ slot ∈ wstore.timeSlots, slot.eventID = "e1" →
        slotDurationMinutes slot < (event.requiredDuration : ℚ) →
        ∀ r ∈ [wrec], r.timeSlot ≠ slot) :=
  C4_eligibility wstore "e1" [wrec] wstore_eval

/-! ### C5: the percentage formula -/

theorem length_filter_partition {α : Type} (l : List α) (p : α → Bool) :
    (l.filter p).length + (l.filter (fun x => !(p x))).length = l.length := by
  induction l with
  | nil => simp
  | cons x xs ih =>
    by_cases h : p x = true <;> simp [List.filter, h] <;> omega

/-- C5: the percentage of every output recommendation equals
`|availableUsers| / (|availableUsers| + |unavailableUsers|) × 100` as an exact
rational number (no rounding to an integer). -/
theorem C5_percentage (s : Store) (eventID : String)
    (recs : List Recommendation) (r : Recommendation)
    (hok : getRecommendations s eventID = .ok recs) (hr : r ∈ recs) :
    r.availabilityPercentage =
      (r.availableUsers.length : ℚ) /
        ((r.availableUsers.length : ℚ) + (r.unavailableUsers.length : ℚ)) * 100 := by
  obtain ⟨event, slot, hfind, hmem, hevid, hdur, hne, rfl⟩ :=
    mem_of_getRecommendations_ok s eventID recs r hok hr
  have hpart := length_filter_partition (uniqueUsersOf s eventID)
    (fun u => isUserAvailable s eventID u slot.id)
  simp only [mkRecommendation]
  rw [← hpart]
  push_cast
  ring

/-- Witness for `C5_percentage` at `wstore`: 2 of 3 known users available gives
exactly 200/3 (≈ 66.67), which is neither 66 nor 67. -/
theorem C5_percentage_witness :
    (wrec.availabilityPercentage =
      (wrec.availableUsers.length : ℚ) /
        ((wrec.availableUsers.length : ℚ) + (wrec.unavailableUsers.length : ℚ)) * 100) ∧
    wrec.availabilityPercentage = 200 / 3 ∧
    wrec.availabilityPercentage ≠ 66 ∧ wrec.availabilityPercentage ≠ 67 := by
  refine ⟨C5_percentage wstore "e1" [wrec] wrec wstore_eval
    (List.mem_singleton_self _), ?_, ?_, ?_⟩
  · rw [show wrec.availabilityPercentage = mkRat 200 3 from rfl, Rat.mkRat_eq_div]
    norm_num
  · rw [show wrec.availabilityPercentage = mkRat 200 3 from rfl, Rat.mkRat_eq_div]
    norm_num
  · rw [show wrec.availabilityPercentage = mkRat 200 3 from rfl, Rat.mkRat_eq_div]
    norm_num

/-! ### C6: NotFound iff the event is missing; empty results are successes -/

/-- C6: `getRecommendations` fails (necessarily with "Event not found") iff the
event does not exist; an existing event with no slots, or with no availability
records, yields `.ok []`; and every computed percentage has a non-zero
denominator. -/
theorem C6_not_found (s : Store) (eventID : String) :
    (getRecommendations s eventID = .error (.notFound "Event not found") ↔
      findEvent s eventID = none) ∧
    (∀ err, getRecommendations s eventID = .error err →
      err = .notFound "Event not found" ∧ findEvent s eventID = none) ∧
    ((∀ t ∈ s.timeSlots, t.eventID ≠ eventID) → findEvent s eventID ≠ none →
      getRecommendations s eventID = .ok []) ∧
    ((∀ a ∈ s.userAvailability, a.eventID ≠ eventID) → findEvent s eventID ≠ none →
      getRecommendations s eventID = .ok []) ∧
    (∀ recs, getRecommendations s eventID = .ok recs →
      ∀ r ∈ recs,
        (r.availableUsers.length : ℚ) + (r.unavailableUsers.length : ℚ) ≠ 0) := by
  refine ⟨?_, ?_, ?_, ?_, ?_⟩
  · unfold getRecommendations
    cases hfind : findEvent s eventID with
    | none => simp
    | some event =>
      simp only [Option.some_ne_none, iff_false]
      split_ifs <;> intro h <;> cases h
  · intro err
    unfold getRecommendations
    cases hfind : findEvent s eventID with
    | none =>
      intro h
      cases h
      exact ⟨rfl, rfl⟩
    | some event =>
      simp only
      split_ifs <;> intro h <;> cases h
  · intro hts hev
    unfold getRecommendations
    cases hfind : findEvent s eventID with
    | none => exact absurd hfind hev
    | some event =>
      have hempty : eventSlotsOf s eventID = [] := by
        unfold eventSlotsOf
        rw [List.filter_eq_nil_iff]
        intro t ht
        simpa using hts t ht
      simp [hempty]
  · intro hua hev
    unfold getRecommendations
    cases hfind : findEvent s eventID with
    | none => exact absurd hfind hev
    | some event =>
      have hfil : s.userAvailability.filter (fun a => a.eventID == eventID) = [] := by
        rw [List.filter_eq_nil_iff]
        intro a ha
        simpa using hua a ha
      have hempty : uniqueUsersOf s eventID = [] := by
        unfold uniqueUsersOf
        rw [hfil]
        rfl
      simp [hempty]
  · intro recs hok r hr
    obtain ⟨event, slot, hfind, hmem, hevid, hdur, hne, rfl⟩ :=
      mem_of_getRecommendations_ok s eventID recs r hok hr
    have hpart := length_filter_partition (uniqueUsersOf s eventID)
      (fun u => isUserAvailable s eventID u slot.id)
    simp only [mkRecommendation]
    rw [← Nat.cast_add, hpart]
    simpa [Nat.cast_ne_zero, List.length_eq_zero] using hne

def s6a : Store := { events := [], timeSlots := [], userAvailability := [] }

def s6b : Store :=
  { events := [ { id := "e1", title := "t", description := "",
                  organizerID := "o", requiredDuration := 60, status := "active",
                  createdAt := 0, updatedAt := 0 } ],
    timeSlots := [], userAvailability := [] }

def s6c : Store :=
  { events := [ { id := "e1", title := "t", description := "",
                  organizerID := "o", requiredDuration := 60, status := "active",
                  createdAt := 0, updatedAt := 0 } ],
    timeSlots := [ { id := "s1", eventID := "e1", startTime := 0, endTime := 5400,
                     createdAt := 0, updatedAt := 0 } ],
    userAvailability := [] }

/-- Witness for `C6_not_found`: a missing event errors; an event with no slots
and an event with slots but no respondents both yield `.ok []`; the percentage
denominator is non-zero on `wstore`'s output. -/
theorem C6_not_found_witness :
    getRecommendations s6a "e1" = .error (.notFound "Event not found") ∧
    getRecommendations s6b "e1" = .ok [] ∧
    getRecommendations s6c "e1" = .ok [] ∧
    (∀ r ∈ [wrec],
      (r.availableUsers.length : ℚ) + (r.unavailableUsers.length : ℚ) ≠ 0) :=
  ⟨(C6_not_found s6a "e1").1.mpr (by decide),
   (C6_not_found s6b "e1").2.2.1 (by decide) (by decide),
   (C6_not_found s6c "e1").2.2.2.1 (by decide) (by decide),
   (C6_not_found wstore "e1").2.2.2.2 [wrec] wstore_eval⟩

/-! ### C7: determinism across calls / map-iteration order -/

/-- The order-insensitive content of a recommendation: the slot, the available
and unavailable users as sets, and the percentage. -/
def canonRec (r : Recommendation) :
    TimeSlot × Finset String × Finset String × ℚ :=
  (r.timeSlot, r.availableUsers.toFinset, r.unavailableUsers.toFinset,
    r.availabilityPercentage)

theorem isUserAvailable_congr (s1 s2 : Store) (eventID userID slotID : String)
    (hua : s1.userAvailability.Perm s2.userAvailability) :
    isUserAvailable s1 eventID userID slotID =
      isUserAvailable s2 eventID userID slotID := by
  refine Bool.eq_iff_iff.mpr ?_
  simp only [isUserAvailable, List.any_eq_true]
  constructor
  · rintro ⟨a, ha, hp⟩
    exact ⟨a, hua.mem_iff.mp ha, hp⟩
  · rintro ⟨a, ha, hp⟩
    exact ⟨a, hua.mem_iff.mpr ha, hp⟩

theorem perm_toFinset {l1 l2 : List String} (h : l1.Perm l2) :
    l1.toFinset = l2.toFinset := by
  ext a
  simp [List.mem_toFinset, h.mem_iff]

theorem uniqueUsersOf_perm (s1 s2 : Store) (eventID : String)
    (hua : s1.userAvailability.Perm s2.userAvailability) :
    (uniqueUsersOf s1 eventID).Perm (uniqueUsersOf s2 eventID) := by
  apply List.perm_of_nodup_nodup_toFinset_eq (nodup_uniqueUsersOf _ _)
    (nodup_uniqueUsersOf _ _)
  ext u
  simp only [List.mem_toFinset, mem_uniqueUsersOf]
  unfold isKnownUser
  constructor
  · rintro ⟨a, ha, h⟩
    exact ⟨a, hua.mem_iff.mp ha, h⟩
  · rintro ⟨a, ha, h⟩
    exact ⟨a, hua.mem_iff.mpr ha, h⟩

theorem canonRec_mk (s1 s2 : Store) (eventID : String)
    (users1 users2 : List String) (slot : TimeSlot)
    (hua : s1.userAvailability.Perm s2.userAvailability)
    (husers : users1.Perm users2) :
    canonRec (mkRecommendation s1 eventID users1 slot) =
      canonRec (mkRecommendation s2 eventID users2 slot) := by
  have hp : ∀ u, isUserAvailable s1 eventID u slot.id =
      isUserAvailable s2 eventID u slot.id :=
    fun u => isUserAvailable_congr s1 s2 eventID u slot.id hua
  unfold canonRec mkRecommendation
  simp only [hp, Prod.mk.injEq]
  have hfilA := husers.filter (fun u => isUserAvailable s2 eventID u slot.id)
  have hfilU := husers.filter (fun u => !(isUserAvailable s2 eventID u slot.id))
  exact ⟨trivial, perm_toFinset hfilA, perm_toFinset hfilU,
    by rw [hfilA.length_eq, husers.length_eq]⟩

/-- C7, amended: over the same store contents — equal event map, and slot and
availability maps equal as sets of entries — two `getRecommendations` calls
fail identically, and on success return the same multiset of recommendations
up to the order of equal-percentage entries and the order inside the user
lists (same slots, same available/unavailable user sets, same percentages).
Byte-identical output is not guaranteed, because the ordering depends on Go's
randomized map-iteration order. -/
theorem C7_perm_invariance (s1 s2 : Store) (eventID : String)
    (hev : s1.events = s2.events)
    (hts : s1.timeSlots.Perm s2.timeSlots)
    (hua : s1.userAvailability.Perm s2.userAvailability) :
    (∀ err, getRecommendations s1 eventID = .error err ↔
      getRecommendations s2 eventID = .error err) ∧
    (∀ recs1 recs2, getRecommendations s1 eventID = .ok recs1 →
      getRecommendations s2 eventID = .ok recs2 →
      (recs1.map canonRec).Perm (recs2.map canonRec)) := by
  have hfind : findEvent s1 eventID = findEvent s2 eventID := by
    unfold findEvent
    rw [hev]
  have hslots : (eventSlotsOf s1 eventID).Perm (eventSlotsOf s2 eventID) :=
    hts.filter _
  have husers := uniqueUsersOf_perm s1 s2 eventID hua
  have hslE : (eventSlotsOf s1 eventID).isEmpty = (eventSlotsOf s2 eventID).isEmpty := by
    refine Bool.eq_iff_iff.mpr ?_
    simp only [List.isEmpty_iff_length_eq_zero, hslots.length_eq]
  have husE : (uniqueUsersOf s1 eventID).isEmpty = (uniqueUsersOf s2 eventID).isEmpty := by
    refine Bool.eq_iff_iff.mpr ?_
    simp only [List.isEmpty_iff_length_eq_zero, husers.length_eq]
  constructor
  · intro err
    unfold getRecommendations
    rw [hfind]
    cases findEvent s2 eventID with
    | none => exact Iff.rfl
    | some event =>
      simp only
      rw [hslE, husE]
      split_ifs <;> exact Iff.rfl
  · intro recs1 recs2 h1 h2
    unfold getRecommendations at h1 h2
    rw [hfind] at h1
    cases hfind2 : findEvent s2 eventID with
    | none =>
      rw [hfind2] at h1
      cases h1
    | some event =>
      rw [hfind2] at h1 h2
      simp only at h1 h2
      rw [hslE, husE] at h1
      split_ifs at h1 h2 with hc1 hc2
      · cases h1
        cases h2
        exact List.Perm.refl _
      · cases h1
        cases h2
        exact List.Perm.refl _
      · cases h1
        cases h2
        have hfun : (canonRec ∘ mkRecommendation s1 eventID (uniqueUsersOf s1 eventID)) =
            (canonRec ∘ mkRecommendation s2 eventID (uniqueUsersOf s2 eventID)) :=
          funext fun slot => canonRec_mk s1 s2 eventID _ _ slot hua husers
        have helig : ((eventSlotsOf s1 eventID).filter (fun slot =>
            !(decide (slotDurationMinutes slot < (event.requiredDuration : ℚ))))).Perm
            ((eventSlotsOf s2 eventID).filter (fun slot =>
            !(decide (slotDurationMinutes slot < (event.requiredDuration : ℚ))))) :=
          hslots.filter _
        refine List.Perm.trans ((sortRecommendations_perm _).map canonRec) ?_
        refine List.Perm.trans ?_ (((sortRecommendations_perm _).map canonRec).symm)
        rw [List.map_map, List.map_map, hfun]
        exact helig.map _

def cs7slot : TimeSlot :=
  { id := "p1", eventID := "e1", startTime := 0, endTime := 5400,
    createdAt := 0, updatedAt := 0 }

def cs7r1 : UserAvailability :=
  { id := "q1", userID := "u1", eventID := "e1", timeSlotID := "p1",
    status := "available", createdAt := 0, updatedAt := 0 }

def cs7r2 : UserAvailability :=
  { id := "q2", userID := "u2", eventID := "e1", timeSlotID := "p1",
    status := "available", createdAt := 0, updatedAt := 0 }

def cs7event : Event :=
  { id := "e1", title := "demo", description := "", organizerID := "org",
    requiredDuration := 60, status := "active", createdAt := 0, updatedAt := 0 }

/-- Availability map iterated as [u1's record, u2's record]. -/
def cs7a : Store :=
  { events := [cs7event], timeSlots := [cs7slot],
    userAvailability := [cs7r1, cs7r2] }

/-- The same availability map iterated in the opposite order. -/
def cs7b : Store :=
  { events := [cs7event], timeSlots := [cs7slot],
    userAvailability := [cs7r2, cs7r1] }

def cs7reca : Recommendation :=
  { timeSlot := cs7slot, availableUsers := ["u1", "u2"], unavailableUsers := [],
    availabilityPercentage := mkRat 200 2 }

def cs7recb : Recommendation :=
  { timeSlot := cs7slot, availableUsers := ["u2", "u1"], unavailableUsers := [],
    availabilityPercentage := mkRat 200 2 }

theorem cs7a_eval : getRecommendations cs7a "e1" = .ok [cs7reca] := by
  rw [← getRecommendationsC_eq]
  decide

theorem cs7b_eval : getRecommendations cs7b "e1" = .ok [cs7recb] := by
  rw [← getRecommendationsC_eq]
  decide

/-- C7, counterexample: `cs7a` and `cs7b` hold the same three maps — equal
event and slot maps, and availability maps equal as sets of entries — so they
model the same unchanged store state; only the (arbitrary, randomized) map
iteration order differs, and the two calls return different byte-level output:
the available-user lists come out as [u1, u2] versus [u2, u1]. -/
theorem C7_counterexample :
    cs7a.events = cs7b.events ∧ cs7a.timeSlots = cs7b.timeSlots ∧
    cs7a.userAvailability.Perm cs7b.userAvailability ∧
    getRecommendations cs7a "e1" ≠ getRecommendations cs7b "e1" := by
  refine ⟨rfl, rfl, List.Perm.swap _ _ _, ?_⟩
  rw [cs7a_eval, cs7b_eval]
  decide

/-- Witness for `C7_perm_invariance` on `cs7a`/`cs7b`. -/
theorem C7_perm_invariance_witness :
    ([cs7reca].map canonRec).Perm ([cs7recb].map canonRec) :=
  (C7_perm_invariance cs7a cs7b "e1" rfl (List.Perm.refl _)
    (List.Perm.swap _ _ _)).2 [cs7reca] [cs7recb] cs7a_eval cs7b_eval

/-! ### C8: which event fields `updateEvent` can change -/

def c8event : Event :=
  { id := "e1", title := "orig", description := "d", organizerID := "o1",
    requiredDuration := 30, status := "active", createdAt := 5, updatedAt := 5 }

def c8store : Store :=
  { events := [c8event], timeSlots := [], userAvailability := [] }

/-- C8, counterexample: the update request body carries no status field and
the handler never assigns `Status`, so no update call can change the status of
`c8store`'s event — the status is not mutable via update. -/
theorem C8_counterexample :
    ¬ ∃ (req : CreateEventRequest) (now : Int) (ev : Event) (s' : Store),
        updateEvent c8store "e1" req now = .ok (ev, s') ∧ ev.status ≠ "active" := by
  rintro ⟨req, now, ev, s', hok, hne⟩
  apply hne
  unfold updateEvent at hok
  have hfind : findEvent c8store "e1" = some c8event := by decide
  rw [hfind] at hok
  simp only [Except.ok.injEq, Prod.mk.injEq] at hok
  rw [← hok.1]
  rfl

/-- C8, amended: a successful update keeps the identifier, status, and
creation timestamp of the stored event, sets title, description, organizer and
required duration from the request (and refreshes the update timestamp), never
changes any event identifier in the store, and leaves other events and the
other two maps untouched. -/
theorem C8_update_fields (s : Store) (eventID : String)
    (req : CreateEventRequest) (now : Int) (ev : Event) (s' : Store)
    (hok : updateEvent s eventID req now = .ok (ev, s')) :
    ∃ e0, findEvent s eventID = some e0 ∧
      ev.id = e0.id ∧ ev.status = e0.status ∧ ev.createdAt = e0.createdAt ∧
      ev.title = req.title ∧ ev.description = req.description ∧
      ev.organizerID = req.organizerID ∧
      ev.requiredDuration = req.requiredDuration ∧ ev.updatedAt = now ∧
      s'.events.map (fun e => e.id) = s.events.map (fun e => e.id) ∧
      s'.timeSlots = s.timeSlots ∧ s'.userAvailability = s.userAvailability ∧
      (∀ e ∈ s.events, e.id ≠ eventID → e ∈ s'.events) := by
  unfold updateEvent at hok
  cases hfind : findEvent s eventID with
  | none =>
    rw [hfind] at hok
    cases hok
  | some e0 =>
    rw [hfind] at hok
    simp only [Except.ok.injEq, Prod.mk.injEq] at hok
    obtain ⟨hev, hs'⟩ := hok
    have he0 : e0.id = eventID := by
      unfold findEvent at hfind
      have h := List.find?_some hfind
      simpa using h
    refine ⟨e0, rfl, ?_, ?_, ?_, ?_, ?_, ?_, ?_, ?_, ?_, ?_, ?_, ?_⟩
    · rw [← hev]
    · rw [← hev]
    · rw [← hev]
    · rw [← hev]
    · rw [← hev]
    · rw [← hev]
    · rw [← hev]
    · rw [← hev]
    · rw [← hs']
      simp only [List.map_map]
      refine List.map_congr_left ?_
      intro e he
      simp only [Function.comp_apply]
      by_cases h : (e.id == eventID) = true
      · rw [if_pos h]
        show e0.id = e.id
        rw [he0]
        exact (beq_iff_eq.mp h).symm
      · rw [if_neg h]
    · rw [← hs']
    · rw [← hs']
    · intro e he hne
      rw [← hs']
      simp only [List.mem_map]
      refine ⟨e, he, ?_⟩
      have : (e.id == eventID) = false := beq_eq_false_iff_ne.mpr hne
      simp [this]

def c8req : CreateEventRequest :=
  { title := "new", description := "nd", organizerID := "o2",
    requiredDuration := 45 }

def c8ev : Event :=
  { id := "e1", title := "new", description := "nd", organizerID := "o2",
    requiredDuration := 45, status := "active", createdAt := 5, updatedAt := 99 }

def c8store' : Store :=
  { events := [c8ev], timeSlots := [], userAvailability := [] }

/-- Witness for `C8_update_fields` on `c8store`. -/
theorem C8_update_fields_witness :
    ∃ e0, findEvent c8store "e1" = some e0 ∧
      c8ev.id = e0.id ∧ c8ev.status = e0.status ∧ c8ev.createdAt = e0.createdAt ∧
      c8ev.title = c8req.title ∧ c8ev.description = c8req.description ∧
      c8ev.organizerID = c8req.organizerID ∧
      c8ev.requiredDuration = c8req.requiredDuration ∧ c8ev.updatedAt = 99 ∧
      c8store'.events.map (fun e => e.id) = c8store.events.map (fun e => e.id) ∧
      c8store'.timeSlots = c8store.timeSlots ∧
      c8store'.userAvailability = c8store.userAvailability ∧
      (∀ e ∈ c8store.events, e.id ≠ "e1" → e ∈ c8store'.events) :=
  C8_update_fields c8store "e1" c8req 99 c8ev c8store' (by decide)

/-! ### C9: createUserAvailability always inserts a fresh record -/

/-- C9: with a fresh generated identifier, a successful create appends a brand
new record carrying the request data; every pre-existing record survives —
including any with the same (user, event, slot) tuple, so duplicates
accumulate and no (user, slot)-keyed upsert happens at the store boundary. -/
theorem C9_insert (s : Store) (eventID userID : String)
    (req : UserAvailabilityRequest) (newID : String) (now : Int)
    (rec : UserAvailability) (s' : Store)
    (hfresh : ∀ a ∈ s.userAvailability, a.id ≠ newID)
    (hok : createUserAvailability s eventID userID req newID now = .ok (rec, s')) :
    rec.id = newID ∧ rec.userID = userID ∧ rec.eventID = eventID ∧
    rec.timeSlotID = req.timeSlotID ∧ rec.status = req.status ∧
    s'.userAvailability = s.userAvailability ++ [rec] ∧
    s'.userAvailability.length = s.userAvailability.length + 1 ∧
    (∀ a ∈ s.userAvailability, a ∈ s'.userAvailability ∧ a.id ≠ rec.id) ∧
    (∀ a ∈ s.userAvailability,
      a.userID = userID → a.eventID = eventID → a.timeSlotID = req.timeSlotID →
        a ∈ s'.userAvailability ∧ a ≠ rec) := by
  unfold createUserAvailability at hok
  cases hfind : findEvent s eventID with
  | none =>
    rw [hfind] at hok
    cases hok
  | some e =>
    rw [hfind] at hok
    simp only at hok
    cases hslot : findTimeSlot s req.timeSlotID with
    | none =>
      rw [hslot] at hok
      cases hok
    | some t =>
      rw [hslot] at hok
      simp only [Except.ok.injEq, Prod.mk.injEq] at hok
      obtain ⟨hrec, hs'⟩ := hok
      subst hrec
      subst hs'
      refine ⟨rfl, rfl, rfl, rfl, rfl, rfl, by simp, ?_, ?_⟩
      · intro a ha
        exact ⟨List.mem_append_left _ ha, hfresh a ha⟩
      · intro a ha h1 h2 h3
        refine ⟨List.mem_append_left _ ha, ?_⟩
        intro heq
        exact hfresh a ha (by rw [heq])

def c9event : Event :=
  { id := "e1", title := "t", description := "", organizerID := "o",
    requiredDuration := 60, status := "active", createdAt := 0, updatedAt := 0 }

def c9slot : TimeSlot :=
  { id := "t1", eventID := "e1", startTime := 0, endTime := 5400,
    createdAt := 0, updatedAt := 0 }

/-- A pre-existing record for (u1, e1, t1). -/
def c9old : UserAvailability :=
  { id := "old1", userID := "u1", eventID := "e1", timeSlotID := "t1",
    status := "unavailable", createdAt := 0, updatedAt := 0 }

def c9store : Store :=
  { events := [c9event], timeSlots := [c9slot], userAvailability := [c9old] }

def c9req : UserAvailabilityRequest :=
  { timeSlotID := "t1", status := "available" }

/-- The record the handler creates for (u1, e1, t1): same tuple as `c9old`. -/
def c9new : UserAvailability :=
  { id := "new1", userID := "u1", eventID := "e1", timeSlotID := "t1",
    status := "available", createdAt := 7, updatedAt := 7 }

def c9store' : Store :=
  { events := [c9event], timeSlots := [c9slot],
    userAvailability := [c9old, c9new] }

/-- Witness for `C9_insert`: creating a second record for the tuple already
covered by `c9old` keeps both records. -/
theorem C9_insert_witness :
    c9new.id = "new1" ∧ c9new.userID = "u1" ∧ c9new.eventID = "e1" ∧
    c9new.timeSlotID = c9req.timeSlotID ∧ c9new.status = c9req.status ∧
    c9store'.userAvailability = c9store.userAvailability ++ [c9new] ∧
    c9store'.userAvailability.length = c9store.userAvailability.length + 1 ∧
    (∀ a ∈ c9store.userAvailability,
      a ∈ c9store'.userAvailability ∧ a.id ≠ c9new.id) ∧
    (∀ a ∈ c9store.userAvailability,
      a.userID = "u1" → a.eventID = "e1" → a.timeSlotID = c9req.timeSlotID →
        a ∈ c9store'.userAvailability ∧ a ≠ c9new) :=
  C9_insert c9store "e1" "u1" c9req "new1" 7 c9new c9store' (by decide) (by decide)

/-! ### C10: no check that the slot belongs to the path event -/

/-- C10: if the path event exists and the requested slot exists anywhere in
the slot map — even owned by a different event — the create succeeds and binds
the user to the path event, making the user a known user of that event. -/
theorem C10_cross_event (s : Store) (eventID userID : String)
    (req : UserAvailabilityRequest) (newID : String) (now : Int)
    (e : Event) (t : TimeSlot)
    (hev : findEvent s eventID = some e)
    (hslot : findTimeSlot s req.timeSlotID = some t)
    (_hcross : t.eventID ≠ eventID) :
    ∃ rec s',
      createUserAvailability s eventID userID req newID now = .ok (rec, s') ∧
      rec.eventID = eventID ∧ rec.userID = userID ∧
      rec.timeSlotID = req.timeSlotID ∧ isKnownUser s' eventID userID := by
  unfold createUserAvailability
  rw [hev, hslot]
  refine ⟨_, _, rfl, rfl, rfl, rfl, ?_⟩
  refine ⟨{ id := newID, userID := userID, eventID := eventID,
            timeSlotID := req.timeSlotID, status := req.status,
            createdAt := now, updatedAt := now },
    List.mem_append_right _ (List.mem_singleton_self _), rfl, rfl⟩

def c10e1 : Event :=
  { id := "e1", title := "a", description := "", organizerID := "o",
    requiredDuration := 60, status := "active", createdAt := 0, updatedAt := 0 }

def c10e2 : Event :=
  { id := "e2", title := "b", description := "", organizerID := "o",
    requiredDuration := 60, status := "active", createdAt := 0, updatedAt := 0 }

/-- A slot owned by event e2, not e1. -/
def c10slot : TimeSlot :=
  { id := "z1", eventID := "e2", startTime := 0, endTime := 5400,
    createdAt := 0, updatedAt := 0 }

def c10store : Store :=
  { events := [c10e1, c10e2], timeSlots := [c10slot], userAvailability := [] }

def c10req : UserAvailabilityRequest :=
  { timeSlotID := "z1", status := "available" }

/-- Witness for `C10_cross_event`: event e1 has no slot of its own, yet a
record referencing e2's slot binds u9 to e1. -/
theorem C10_cross_event_witness :
    ∃ rec s',
      createUserAvailability c10store "e1" "u9" c10req "n1" 3 = .ok (rec, s') ∧
      rec.eventID = "e1" ∧ rec.userID = "u9" ∧
      rec.timeSlotID = c10req.timeSlotID ∧ isKnownUser s' "e1" "u9" :=
  C10_cross_event c10store "e1" "u9" c10req "n1" 3 c10e1 c10slot
    (by decide) (by decide) (by decide)
